import Mathlib

/-!
Verification of the Expert Agent Core of libaskexperts (src/expert.ts).

The development shallowly embeds the observable behaviour of the
`Expert` class: nostr events, the active-bid registry (a JS `Map`
keyed by the current context id), the bid pipeline
(`handleAskEvent` / `setupQuestionSubscription`), the question→answer
pipeline (`handleQuestionEvent` / `setupFollowupSubscription`), the
subscription `onevent` wrappers, the bid-timeout callbacks, and the
pair of ask subscriptions opened by `start()`.

Effectful collaborators (the NWC wallet, NIP-44 encryption, SHA-256
over hex strings, JSON serialisation, event-id computation, the
user-supplied handlers, relay publish results) are supplied through an
`Env` record of oracles; a fallible JS call that can throw is an
`Option`-valued oracle, `none` standing for the thrown exception which
the surrounding try/catch turns into an aborted turn.  Every pipeline
function returns the updated registry together with a trace of
observable actions (invoice mints, invoice lookups, publishes,
subscription arming, timer arming, subscription closing, registry
deletion), in the order the source performs them.
-/

namespace AskExperts

/-- Unsigned nostr event, as passed to `finalizeEvent` (kind, created_at,
pubkey, tags, content). -/
structure UEvent where
  pubkey : String
  created_at : Int
  kind : Int
  tags : List (List String)
  content : String
deriving Repr, DecidableEq

/-- Signed nostr event: the unsigned fields plus the canonical id that
`finalizeEvent` computes.  (The Schnorr signature itself is never
inspected by the core, so it is not modelled.) -/
structure NEvent extends UEvent where
  id : String
deriving Repr, DecidableEq

/-- Handler-visible projection of an ask event (types.ts `Ask`). -/
structure Ask where
  id : String
  pubkey : String
  content : String
  created_at : Int
  tags : List (List String)
deriving Repr, DecidableEq

/-- Bid decision returned by the `onAsk` handler (types.ts `Bid`). -/
structure Bid where
  content : String
  bid_sats : Int
  tags : Option (List (List String))
deriving Repr, DecidableEq

/-- Handler-visible question (types.ts `Question`). -/
structure Question where
  id : String
  content : String
  preimage : String
  tags : List (List String)
deriving Repr, DecidableEq

/-- Answer returned by the `onQuestion` handler; `followup_sats` is the
optional price of a follow-up turn. -/
structure Answer where
  content : String
  tags : Option (List (List String))
  followup_sats : Option Int
deriving Repr, DecidableEq

/-- One (question, answer) turn stored in a conversation's history
(types.ts `QuestionAnswerPair`). -/
structure QuestionAnswerPair where
  question : Question
  answer : Answer
deriving Repr, DecidableEq

/-- The JSON structure decrypted from a question event's content. -/
structure QuestionPayload where
  content : String
  tags : List (List String)
deriving Repr, DecidableEq

/-- The JSON structure encrypted into an answer event's content. -/
structure AnswerPayload where
  content : String
  tags : List (List String)
deriving Repr, DecidableEq

/-- A pool subscription as opened by `pool.subscribeMany`: the relay set
and the filter contents used by the core (kind list and `#e` values). -/
structure Subscription where
  relays : List String
  kinds : List Int
  etag : List String
deriving Repr, DecidableEq

/-- A conversation tracked in `this.activeBids` (types.ts `ActiveBid`,
with the `history` and `contextId` fields used by expert.ts).  The
subscription handle is modelled by its filter value and the timeout
handle by the armed duration in milliseconds. -/
structure ActiveBid where
  askEvent : NEvent
  bidEvent : NEvent
  bidPayloadEvent : NEvent
  sessionPubkey : String
  paymentHash : String
  timestamp : Int
  subscription : Subscription
  timeoutMs : Int
  bid : Bid
  history : List QuestionAnswerPair
  contextId : String
deriving Repr, DecidableEq

/-- Expert configuration (the fields of `ExpertParams` the pipelines
read, with `expertPubkey` derived from the private key). -/
structure Config where
  expertPubkey : String
  askRelays : List String
  questionRelays : List String
  hashtags : List String
  bidTimeout : Int
deriving Repr, DecidableEq

/-- Observable actions performed by the pipelines, in source order. -/
inductive Action where
  | makeInvoice (amountMsat : Int) (description : String)
  | checkPreimage (preimage : String) (paymentHash : String)
  | lookupInvoice (paymentHash : String)
  | callOnQuestion (q : Question)
  | publish (relays : List String) (ev : NEvent)
  | subscribe (s : Subscription)
  | startTimer (ms : Int)
  | closeSub (s : Subscription)
  | cancelTimer
  | deleteKey (k : String)
deriving Repr, DecidableEq

/-- Oracles for the effectful collaborators of one pipeline run.
`Option`-valued oracles model JS calls that may throw (`none` = the
call threw). -/
structure Env where
  /-- `Math.floor(Date.now() / 1000)` at event-construction time. -/
  now : Int
  /-- canonical event id computed by `finalizeEvent`. -/
  computeId : UEvent → String
  /-- the `onAsk` handler; `none` = no bid (or the handler threw). -/
  onAsk : Ask → Option Bid
  /-- the `onQuestion` handler; `none` = the handler threw. -/
  onQuestion : Ask → Bid → Question → List QuestionAnswerPair → Option Answer
  /-- `nwcClient.makeInvoice` taking (amount msat, description) and
  returning (invoice, payment_hash); `none` = threw. -/
  makeInvoice : Int → String → Option (String × String)
  /-- `nwcClient.lookupInvoice`: outer `none` = transport throw, inner
  option = the `settled_at` field (absent or a unix timestamp). -/
  lookupInvoice : String → Option (Option Int)
  /-- public key of the freshly generated ephemeral bid keypair. -/
  bidPubkey : String
  /-- public key of the freshly generated ephemeral answer keypair. -/
  answerPubkey : String
  /-- `nip44.getConversationKey(bidPrivateKey, pk)`. -/
  convKeyBid : String → String
  /-- `nip44.getConversationKey(this.expertPrivkey, pk)`. -/
  convKeyExpert : String → String
  /-- `nip44.encrypt(plaintext, key)`; `none` = threw. -/
  encrypt : String → String → Option String
  /-- `nip44.decrypt(ciphertext, key)`; `none` = threw. -/
  decrypt : String → String → Option String
  /-- `JSON.parse` of decrypted question content, projected onto the
  fields the core reads; `none` = parse threw or shape mismatch. -/
  parseQuestionPayload : String → Option QuestionPayload
  /-- `JSON.stringify` of a signed event. -/
  eventJson : NEvent → String
  /-- `JSON.stringify` of an answer payload. -/
  payloadJson : AnswerPayload → String
  /-- `bytesToHex(sha256(hexToBytes(s)))`; `none` = `hexToBytes` threw. -/
  hashHex : String → Option String
  /-- number of fulfilled relay publishes for the bid event. -/
  bidPublishOk : Nat
  /-- number of fulfilled relay publishes for the answer event. -/
  answerPublishOk : Nat

/-- The conversation registry `this.activeBids : Map<string, ActiveBid>`,
as an association list in insertion order. -/
abbrev Registry := List (String × ActiveBid)

/-- `Map.get` on the registry. -/
def Registry.get? : Registry → String → Option ActiveBid
  | [], _ => none
  | p :: t, k => if p.1 = k then some p.2 else Registry.get? t k

/-- `Map.delete` on the registry. -/
def Registry.eraseKey : Registry → String → Registry
  | [], _ => []
  | p :: t, k => if p.1 = k then Registry.eraseKey t k else p :: Registry.eraseKey t k

/-- `Map.has` on the registry. -/
def Registry.hasKey : Registry → String → Bool
  | [], _ => false
  | p :: t, k => p.1 = k || Registry.hasKey t k

/-- In-place replacement of the value stored under an existing key. -/
def Registry.replaceKey : Registry → String → ActiveBid → Registry
  | [], _, _ => []
  | p :: t, k, v => (if p.1 = k then (k, v) else p) :: Registry.replaceKey t k v

/-- `Map.set` on the registry: replace the entry under `k` in place, or
append a new entry in insertion order. -/
def Registry.setKey (r : Registry) (k : String) (v : ActiveBid) : Registry :=
  if Registry.hasKey r k then Registry.replaceKey r k v else r ++ [(k, v)]

theorem Registry.get?_eraseKey_self (r : Registry) (k : String) :
    Registry.get? (Registry.eraseKey r k) k = none := by
  induction r with
  | nil => rfl
  | cons p t ih =>
    by_cases h : p.1 = k <;> simp [Registry.eraseKey, Registry.get?, h, ih]

theorem Registry.get?_eraseKey_ne (r : Registry) (k k' : String) (h : k' ≠ k) :
    Registry.get? (Registry.eraseKey r k) k' = Registry.get? r k' := by
  induction r with
  | nil => rfl
  | cons p t ih =>
    by_cases hk : p.1 = k
    · have h3 : k ≠ k' := fun he => h he.symm
      simp [Registry.eraseKey, Registry.get?, hk, h3, ih]
    · by_cases hk' : p.1 = k' <;>
        simp [Registry.eraseKey, Registry.get?, hk, hk', h, ih]

theorem Registry.get?_replaceKey_self (r : Registry) (k : String) (v : ActiveBid)
    (h : Registry.hasKey r k = true) :
    Registry.get? (Registry.replaceKey r k v) k = some v := by
  induction r with
  | nil => simp [Registry.hasKey] at h
  | cons p t ih =>
    by_cases hk : p.1 = k
    · simp [Registry.replaceKey, Registry.get?, hk]
    · have ht : Registry.hasKey t k = true := by
        simp [Registry.hasKey, hk] at h; exact h
      simp [Registry.replaceKey, Registry.get?, hk, ih ht]

theorem Registry.get?_append_single (r : Registry) (k : String) (v : ActiveBid)
    (h : ¬ (Registry.hasKey r k = true)) :
    Registry.get? (r ++ [(k, v)]) k = some v := by
  induction r with
  | nil => simp [Registry.get?]
  | cons p t ih =>
    have hk : p.1 ≠ k := by
      intro hc
      exact h (by simp [Registry.hasKey, hc])
    have ht : ¬ (Registry.hasKey t k = true) := by
      intro hc
      exact h (by simp [Registry.hasKey, hc])
    simp [Registry.get?, hk, ih ht]

theorem Registry.get?_setKey_self (r : Registry) (k : String) (v : ActiveBid) :
    Registry.get? (Registry.setKey r k v) k = some v := by
  unfold Registry.setKey
  by_cases hany : Registry.hasKey r k = true
  · simp only [hany, if_true]
    exact Registry.get?_replaceKey_self r k v hany
  · simp only [hany, if_false]
    exact Registry.get?_append_single r k v hany

theorem Registry.get?_replaceKey_ne (r : Registry) (k k' : String) (v : ActiveBid)
    (h : k' ≠ k) :
    Registry.get? (Registry.replaceKey r k v) k' = Registry.get? r k' := by
  induction r with
  | nil => rfl
  | cons p t ih =>
    by_cases hk : p.1 = k
    · have h3 : k ≠ k' := fun he => h he.symm
      simp [Registry.replaceKey, Registry.get?, hk, h3, ih]
    · by_cases hk' : p.1 = k' <;>
        simp [Registry.replaceKey, Registry.get?, hk, hk', h, ih]

theorem Registry.get?_append_single_ne (r : Registry) (k k' : String) (v : ActiveBid)
    (h : k' ≠ k) :
    Registry.get? (r ++ [(k, v)]) k' = Registry.get? r k' := by
  have h3 : k ≠ k' := fun he => h he.symm
  induction r with
  | nil => simp [Registry.get?, h3]
  | cons p t ih =>
    by_cases hk' : p.1 = k' <;> simp [Registry.get?, hk', ih]

theorem Registry.get?_setKey_ne (r : Registry) (k k' : String) (v : ActiveBid)
    (h : k' ≠ k) : Registry.get? (Registry.setKey r k v) k' = Registry.get? r k' := by
  unfold Registry.setKey
  by_cases hany : Registry.hasKey r k = true
  · simp only [hany, if_true]
    exact Registry.get?_replaceKey_ne r k k' v h
  · simp only [hany, if_false]
    exact Registry.get?_append_single_ne r k k' v h

/-- Number of registry entries stored under a key. -/
def Registry.countKey : Registry → String → Nat
  | [], _ => 0
  | p :: t, k => (if p.1 = k then 1 else 0) + Registry.countKey t k

/-- The registry keys are pairwise distinct (the `Map` invariant). -/
def Registry.keysNodup (r : Registry) : Prop := (r.map Prod.fst).Nodup

theorem Registry.countKey_eq_zero (r : Registry) (k : String)
    (h : ∀ q ∈ r, q.1 ≠ k) : Registry.countKey r k = 0 := by
  induction r with
  | nil => rfl
  | cons p t ih =>
    have hp : p.1 ≠ k := h p (List.mem_cons_self p t)
    have ht : ∀ q ∈ t, q.1 ≠ k := fun q hq => h q (List.mem_cons_of_mem p hq)
    simp [Registry.countKey, hp, ih ht]

theorem Registry.countKey_not_hasKey (r : Registry) (k : String)
    (h : ¬ (Registry.hasKey r k = true)) : Registry.countKey r k = 0 := by
  induction r with
  | nil => rfl
  | cons p t ih =>
    have hp : p.1 ≠ k := fun hc => h (by simp [Registry.hasKey, hc])
    have ht : ¬ (Registry.hasKey t k = true) := fun hc => h (by simp [Registry.hasKey, hc])
    simp [Registry.countKey, hp, ih ht]

theorem Registry.countKey_replaceKey_eq (r : Registry) (k : String) (v : ActiveBid) :
    Registry.countKey (Registry.replaceKey r k v) k = Registry.countKey r k := by
  induction r with
  | nil => rfl
  | cons p t ih =>
    by_cases hk : p.1 = k <;> simp [Registry.replaceKey, Registry.countKey, hk, ih]

theorem Registry.countKey_hasKey_nodup (r : Registry) (k : String)
    (hnd : Registry.keysNodup r) (h : Registry.hasKey r k = true) :
    Registry.countKey r k = 1 := by
  induction r with
  | nil => simp [Registry.hasKey] at h
  | cons p t ih =>
    have hnd' : (p.1 ∉ t.map Prod.fst) ∧ Registry.keysNodup t := by
      simpa [Registry.keysNodup, List.nodup_cons] using hnd
    by_cases hk : p.1 = k
    · have ht : ∀ q ∈ t, q.1 ≠ k := by
        intro q hq hc
        exact hnd'.1 (hk ▸ hc ▸ List.mem_map_of_mem Prod.fst hq)
      simp [Registry.countKey, hk, Registry.countKey_eq_zero t k ht]
    · have ht : Registry.hasKey t k = true := by
        simp [Registry.hasKey, hk] at h; exact h
      simp [Registry.countKey, hk, ih hnd'.2 ht]

theorem Registry.countKey_setKey_self (r : Registry) (k : String) (v : ActiveBid)
    (hnd : Registry.keysNodup r) :
    Registry.countKey (Registry.setKey r k v) k = 1 := by
  unfold Registry.setKey
  by_cases hany : Registry.hasKey r k = true
  · simp only [hany, if_true]
    rw [Registry.countKey_replaceKey_eq]
    exact Registry.countKey_hasKey_nodup r k hnd hany
  · simp only [hany, if_false]
    have h0 : Registry.countKey r k = 0 := Registry.countKey_not_hasKey r k hany
    have happ : ∀ s : Registry, Registry.countKey s k = 0 →
        Registry.countKey (s ++ [(k, v)]) k = 1 := by
      intro s
      induction s with
      | nil => intro _; simp [Registry.countKey]
      | cons p t ih =>
        intro hs
        by_cases hp : p.1 = k
        · simp [Registry.countKey, hp] at hs
        · simp only [Registry.countKey, hp, if_false] at hs
          simpa [Registry.countKey, hp] using ih (by omega)
    exact happ r h0

theorem Registry.mem_eraseKey (r : Registry) (k : String) (q : String × ActiveBid)
    (h : q ∈ Registry.eraseKey r k) : q ∈ r := by
  induction r with
  | nil => simp [Registry.eraseKey] at h
  | cons p t ih =>
    by_cases hk : p.1 = k
    · simp only [Registry.eraseKey, hk, if_true] at h
      exact List.mem_cons_of_mem p (ih h)
    · simp only [Registry.eraseKey, hk, if_false, List.mem_cons] at h
      rcases h with h | h
      · exact h ▸ List.mem_cons_self p t
      · exact List.mem_cons_of_mem p (ih h)

theorem Registry.keysNodup_eraseKey (r : Registry) (k : String)
    (hnd : Registry.keysNodup r) : Registry.keysNodup (Registry.eraseKey r k) := by
  induction r with
  | nil => exact hnd
  | cons p t ih =>
    have hnd' : (p.1 ∉ t.map Prod.fst) ∧ Registry.keysNodup t := by
      simpa [Registry.keysNodup, List.nodup_cons] using hnd
    by_cases hk : p.1 = k
    · simpa [Registry.eraseKey, hk] using ih hnd'.2
    · have hmem : p.1 ∉ (Registry.eraseKey t k).map Prod.fst := by
        intro hc
        rcases List.mem_map.mp hc with ⟨q, hq, hqe⟩
        exact hnd'.1 (hqe ▸ List.mem_map_of_mem Prod.fst (Registry.mem_eraseKey t k q hq))
      have := ih hnd'.2
      simpa [Registry.eraseKey, hk, Registry.keysNodup, List.nodup_cons, hmem] using this

/-! ## Pipeline functions (expert.ts) -/

/-- Projection of a nostr event onto the handler-visible `Ask` value
(expert.ts lines 193–199 and 512–518). -/
def askOf (e : NEvent) : Ask :=
  ⟨e.id, e.pubkey, e.content, e.created_at, e.tags⟩

/-- Value of the first `e` tag of a question event, i.e. the JS
expression `questionEvent.tags.find(tag => tag[0] === "e")?.[1]`
(expert.ts line 426); `none` when no `e` tag exists or the first one
has no value slot. -/
def firstETagValue (qe : NEvent) : Option String :=
  (qe.tags.find? (fun t => t.head? == some "e")).bind (fun t => t.get? 1)

/-- Decrypt and JSON-parse a question event's content with the
conversation key of (expert secret, session pubkey)
(expert.ts lines 436–455); `none` = decryption or parsing threw. -/
def decryptPayload (env : Env) (ab : ActiveBid) (qe : NEvent) : Option QuestionPayload :=
  (env.decrypt (env.convKeyExpert ab.sessionPubkey) qe.content).bind env.parseQuestionPayload

/-- The JS expression
`questionPayload.tags.find(tag => tag[0] === "preimage")?.[1]`
(expert.ts lines 458–460). -/
def extractPreimage (qp : QuestionPayload) : Option String :=
  (qp.tags.find? (fun t => t.head? == some "preimage")).bind (fun t => t.get? 1)

/-- JS truthiness of `answer.followup_sats && answer.followup_sats > 0`
(expert.ts lines 528 and 605). -/
def followupRequested (a : Answer) : Bool :=
  match a.followup_sats with
  | some s => decide (s ≠ 0 ∧ 0 < s)
  | none => false

/-- `setupFollowupSubscription` (expert.ts lines 623–681): arm a
question subscription filtering kind 20177 with `#e = [answerId]` on
the question relays, start a fresh `bidTimeout` timer, point the
conversation's context id at the answer event and re-insert it in the
registry under the answer id. -/
def setupFollowupSubscription (cfg : Config) (answerId : String) (ab : ActiveBid)
    (reg : Registry) : Registry × List Action :=
  let sub : Subscription := ⟨cfg.questionRelays, [20177], [answerId]⟩
  let ab2 : ActiveBid :=
    { ab with subscription := sub, timeoutMs := cfg.bidTimeout * 1000, contextId := answerId }
  (Registry.setKey reg answerId ab2,
    [Action.subscribe sub, Action.startTimer (cfg.bidTimeout * 1000)])

/-- The spread `...(invoice ? [["invoice", invoice]] : [])` appended to
the answer payload tags (expert.ts lines 543–546); JS truthiness makes
an empty invoice string contribute no tag. -/
def invoiceTag : Option (String × String) → List (List String)
  | some (inv, _) => if inv ≠ "" then [["invoice", inv]] else []
  | none => []

/-- Answer construction and publication: expert.ts lines 540–611,
entered after the payment checks and the `onQuestion` handler
succeeded.  `invph` is the optional freshly minted follow-up
(invoice, payment_hash) pair. -/
def publishAnswer (cfg : Config) (env : Env) (qe : NEvent) (ab : ActiveBid)
    (reg : Registry) (q : Question) (answer : Answer)
    (invph : Option (String × String)) : Registry × List Action :=
  let payload : AnswerPayload := ⟨answer.content, answer.tags.getD [] ++ invoiceTag invph⟩
  match env.encrypt (env.convKeyExpert ab.sessionPubkey) (env.payloadJson payload), invph with
  | none, _ => (reg, [])
  | some enc, some (inv, ph) =>
    let u : UEvent := ⟨env.answerPubkey, env.now, 20178, [["e", qe.id]], enc⟩
    let sev : NEvent := ⟨u, env.computeId u⟩
    let ab1 : ActiveBid := { ab with history := ab.history ++ [⟨q, answer⟩] }
    if inv ≠ "" ∧ followupRequested answer then
      let ab2 : ActiveBid := { ab1 with paymentHash := ph }
      let r2 := setupFollowupSubscription cfg sev.id ab2 reg
      (r2.1, Action.publish cfg.questionRelays sev :: r2.2)
    else (reg, [Action.publish cfg.questionRelays sev])
  | some enc, none =>
    let u : UEvent := ⟨env.answerPubkey, env.now, 20178, [["e", qe.id]], enc⟩
    let sev : NEvent := ⟨u, env.computeId u⟩
    (reg, [Action.publish cfg.questionRelays sev])

/-- Invoice lookup, settlement check, `onQuestion` call and optional
follow-up mint (expert.ts lines 478–538), followed by `publishAnswer`.
Entered after the preimage check already passed. -/
def afterChecks (cfg : Config) (env : Env) (qe : NEvent) (ab : ActiveBid)
    (reg : Registry) (qp : QuestionPayload) (pre : String) : Registry × List Action :=
  match env.lookupInvoice ab.paymentHash with
  | none => (reg, [Action.lookupInvoice ab.paymentHash])
  | some settled =>
    match settled with
    | none => (reg, [Action.lookupInvoice ab.paymentHash])
    | some s =>
      if s ≤ 0 then (reg, [Action.lookupInvoice ab.paymentHash])
      else
        let q : Question := ⟨qe.id, qp.content, pre, qp.tags⟩
        match env.onQuestion (askOf ab.askEvent) ab.bid q ab.history with
        | none => (reg, [Action.lookupInvoice ab.paymentHash, Action.callOnQuestion q])
        | some answer =>
          if followupRequested answer then
            match answer.followup_sats with
            | some fs =>
              let amt := fs * 1000
              let desc := "Followup question for " ++ ab.contextId
              match env.makeInvoice amt desc with
              | none =>
                (reg, [Action.lookupInvoice ab.paymentHash, Action.callOnQuestion q,
                  Action.makeInvoice amt desc])
              | some invph =>
                let r2 := publishAnswer cfg env qe ab reg q answer (some invph)
                (r2.1, Action.lookupInvoice ab.paymentHash :: Action.callOnQuestion q ::
                  Action.makeInvoice amt desc :: r2.2)
            | none =>
              let r2 := publishAnswer cfg env qe ab reg q answer none
              (r2.1, Action.lookupInvoice ab.paymentHash :: Action.callOnQuestion q :: r2.2)
          else
            let r2 := publishAnswer cfg env qe ab reg q answer none
            (r2.1, Action.lookupInvoice ab.paymentHash :: Action.callOnQuestion q :: r2.2)

/-- `handleQuestionEvent` (expert.ts lines 412–615): kind guard,
first-`e`-tag guard against the current context id, decryption,
preimage extraction and check against the stored payment hash, then
`afterChecks`.  Any thrown error is caught by the outer try/catch, so
a failing step aborts the turn with the registry untouched. -/
def handleQuestionEvent (cfg : Config) (env : Env) (qe : NEvent) (ab : ActiveBid)
    (reg : Registry) : Registry × List Action :=
  if qe.kind ≠ 20177 then (reg, [])
  else if firstETagValue qe ≠ some ab.contextId then (reg, [])
  else
    match decryptPayload env ab qe with
    | none => (reg, [])
    | some qp =>
      match extractPreimage qp with
      | none => (reg, [])
      | some pre =>
        if pre = "" then (reg, [])
        else if env.hashHex pre ≠ some ab.paymentHash then
          (reg, [Action.checkPreimage pre ab.paymentHash])
        else
          let r2 := afterChecks cfg env qe ab reg qp pre
          (r2.1, Action.checkPreimage pre ab.paymentHash :: r2.2)

/-- `setupQuestionSubscription` (expert.ts lines 326–404): arm the
question subscription filtering kind 20177 with
`#e = [bidPayloadEvent.id]`, start the `bidTimeout` timer, and store
the new conversation under the bid payload event id. -/
def setupQuestionSubscription (cfg : Config) (env : Env)
    (askEvent bidEvent bidPayloadEvent : NEvent) (paymentHash : String) (bid : Bid)
    (reg : Registry) : Registry × List Action :=
  let sub : Subscription := ⟨cfg.questionRelays, [20177], [bidPayloadEvent.id]⟩
  let ab : ActiveBid :=
    { askEvent := askEvent, bidEvent := bidEvent, bidPayloadEvent := bidPayloadEvent,
      sessionPubkey := askEvent.pubkey, paymentHash := paymentHash, timestamp := env.now,
      subscription := sub, timeoutMs := cfg.bidTimeout * 1000, bid := bid,
      history := [], contextId := bidPayloadEvent.id }
  (Registry.setKey reg bidPayloadEvent.id ab,
    [Action.subscribe sub, Action.startTimer (cfg.bidTimeout * 1000)])

/-- `handleAskEvent` (expert.ts lines 180–315): kind guard, `onAsk`
handler, invoice mint of `bid_sats × 1000` msat, bid payload
construction and signing, NIP-44 encryption for the asker, outer bid
construction and signing with the ephemeral key, publication to the
ask relays and — only when at least one relay accepted — conversation
arming via `setupQuestionSubscription`. -/
def handleAskEvent (cfg : Config) (env : Env) (askEvent : NEvent) (reg : Registry) :
    Registry × List Action :=
  if askEvent.kind ≠ 20174 then (reg, [])
  else
    match env.onAsk (askOf askEvent) with
    | none => (reg, [])
    | some bid =>
      let amt := bid.bid_sats * 1000
      let desc := "Bid for ask " ++ askEvent.id
      match env.makeInvoice amt desc with
      | none => (reg, [Action.makeInvoice amt desc])
      | some (invoice, payment_hash) =>
        let u : UEvent := ⟨cfg.expertPubkey, env.now, 20176,
          [["invoice", invoice]] ++ cfg.questionRelays.map (fun r => ["relay", r]) ++
            bid.tags.getD [], bid.content⟩
        let signedBidPayload : NEvent := ⟨u, env.computeId u⟩
        match env.encrypt (env.convKeyBid askEvent.pubkey) (env.eventJson signedBidPayload) with
        | none => (reg, [Action.makeInvoice amt desc])
        | some enc =>
          let ub : UEvent := ⟨env.bidPubkey, env.now, 20175, [["e", askEvent.id]], enc⟩
          let signedBidEvent : NEvent := ⟨ub, env.computeId ub⟩
          if 0 < env.bidPublishOk then
            let r2 := setupQuestionSubscription cfg env askEvent signedBidEvent
              signedBidPayload payment_hash bid reg
            (r2.1, Action.makeInvoice amt desc ::
              Action.publish cfg.askRelays signedBidEvent :: r2.2)
          else (reg, [Action.makeInvoice amt desc,
            Action.publish cfg.askRelays signedBidEvent])

/-- The `onevent` callback armed by `setupQuestionSubscription`
(expert.ts lines 344–372): look the conversation up by the captured
bid payload id — dropping the event when absent — then close the
subscription, cancel the timer and delete the registry entry *before*
handing the event to `handleQuestionEvent`. -/
def questionSubOnEvent (cfg : Config) (env : Env) (bidPayloadId : String)
    (qe : NEvent) (reg : Registry) : Registry × List Action :=
  match Registry.get? reg bidPayloadId with
  | none => (reg, [])
  | some activeBid =>
    let reg1 := Registry.eraseKey reg bidPayloadId
    let r2 := handleQuestionEvent cfg env qe activeBid reg1
    (r2.1, Action.closeSub activeBid.subscription :: Action.cancelTimer ::
      Action.deleteKey bidPayloadId :: r2.2)

/-- The `onevent` callback armed by `setupFollowupSubscription`
(expert.ts lines 638–656): close the subscription, cancel the timer
and delete the registry entry under the captured answer id *before*
handing the event to `handleQuestionEvent` with the captured
conversation. -/
def followupSubOnEvent (cfg : Config) (env : Env) (answerId : String)
    (qe : NEvent) (ab : ActiveBid) (reg : Registry) : Registry × List Action :=
  let reg1 := Registry.eraseKey reg answerId
  let r2 := handleQuestionEvent cfg env qe ab reg1
  (r2.1, Action.closeSub ab.subscription :: Action.cancelTimer ::
    Action.deleteKey answerId :: r2.2)

/-- The timeout callback armed by `setupQuestionSubscription`
(expert.ts lines 382–388): close the captured subscription and delete
the conversation under the captured bid payload id. -/
def questionTimerFire (bidPayloadId : String) (sub : Subscription) (reg : Registry) :
    Registry × List Action :=
  (Registry.eraseKey reg bidPayloadId, [Action.closeSub sub, Action.deleteKey bidPayloadId])

/-- The timeout callback armed by `setupFollowupSubscription`
(expert.ts lines 666–672): close the captured subscription and delete
the conversation under the captured answer id. -/
def followupTimerFire (answerId : String) (sub : Subscription) (reg : Registry) :
    Registry × List Action :=
  (Registry.eraseKey reg answerId, [Action.closeSub sub, Action.deleteKey answerId])

/-- A subscription filter as built by `start()` (expert.ts lines
93–113): kind list, `since`, and the optional `#t` / `#p` tag filters. -/
structure Filter where
  kinds : List Int
  since : Option Int
  tagT : Option (List String)
  tagP : Option (List String)
deriving Repr, DecidableEq

/-- The two ask subscriptions opened by `start()` (expert.ts lines
93–147), each as the relay set paired with its filter.  The `#t`
filter field is added to the first filter only when the configured
hashtag set is non-empty; both subscriptions are opened
unconditionally. -/
def startSubscriptions (cfg : Config) (nowTime : Int) : List (List String × Filter) :=
  let currentTime := nowTime - 10
  let hashtagFilter : Filter :=
    { kinds := [20174], since := some currentTime,
      tagT := if 0 < cfg.hashtags.length then some cfg.hashtags else none, tagP := none }
  let pubkeyFilter : Filter :=
    { kinds := [20174], since := some currentTime, tagT := none,
      tagP := some [cfg.expertPubkey] }
  [(cfg.askRelays, hashtagFilter), (cfg.askRelays, pubkeyFilter)]

/-! ## Trace helper lemmas -/

theorem publishAnswer_no_lookup (cfg : Config) (env : Env) (qe : NEvent) (ab : ActiveBid)
    (reg : Registry) (q : Question) (answer : Answer) (invph : Option (String × String))
    (h : String) :
    Action.lookupInvoice h ∉ (publishAnswer cfg env qe ab reg q answer invph).2 := by
  unfold publishAnswer setupFollowupSubscription
  dsimp only
  split
  · simp
  · split <;> simp
  · simp

theorem publishAnswer_no_mkinv (cfg : Config) (env : Env) (qe : NEvent) (ab : ActiveBid)
    (reg : Registry) (q : Question) (answer : Answer) (invph : Option (String × String))
    (a : Int) (d : String) :
    Action.makeInvoice a d ∉ (publishAnswer cfg env qe ab reg q answer invph).2 := by
  unfold publishAnswer setupFollowupSubscription
  dsimp only
  split
  · simp
  · split <;> simp
  · simp

theorem publishAnswer_no_call (cfg : Config) (env : Env) (qe : NEvent) (ab : ActiveBid)
    (reg : Registry) (q : Question) (answer : Answer) (invph : Option (String × String))
    (q' : Question) :
    Action.callOnQuestion q' ∉ (publishAnswer cfg env qe ab reg q answer invph).2 := by
  unfold publishAnswer setupFollowupSubscription
  dsimp only
  split
  · simp
  · split <;> simp
  · simp

theorem afterChecks_lookup_key (cfg : Config) (env : Env) (qe : NEvent) (ab : ActiveBid)
    (reg : Registry) (qp : QuestionPayload) (pre : String) (h : String)
    (hmem : Action.lookupInvoice h ∈ (afterChecks cfg env qe ab reg qp pre).2) :
    h = ab.paymentHash := by
  unfold afterChecks at hmem
  dsimp only at hmem
  split at hmem
  · simp at hmem; exact hmem
  · split at hmem
    · simp at hmem; exact hmem
    · split at hmem
      · simp at hmem; exact hmem
      · split at hmem
        · simp at hmem; exact hmem
        · split at hmem
          · split at hmem
            · split at hmem
              · simp at hmem; exact hmem
              · simp only [List.mem_cons] at hmem
                rcases hmem with h1 | h1 | h1 | h1
                · exact (Action.lookupInvoice.injEq _ _).mp h1
                · simp at h1
                · simp at h1
                · exact absurd h1 (publishAnswer_no_lookup _ _ _ _ _ _ _ _ _)
            · simp only [List.mem_cons] at hmem
              rcases hmem with h1 | h1 | h1
              · exact (Action.lookupInvoice.injEq _ _).mp h1
              · simp at h1
              · exact absurd h1 (publishAnswer_no_lookup _ _ _ _ _ _ _ _ _)
          · simp only [List.mem_cons] at hmem
            rcases hmem with h1 | h1 | h1
            · exact (Action.lookupInvoice.injEq _ _).mp h1
            · simp at h1
            · exact absurd h1 (publishAnswer_no_lookup _ _ _ _ _ _ _ _ _)

theorem afterChecks_publish_paid (cfg : Config) (env : Env) (qe : NEvent) (ab : ActiveBid)
    (reg : Registry) (qp : QuestionPayload) (pre : String) (rl : List String) (ev : NEvent)
    (hmem : Action.publish rl ev ∈ (afterChecks cfg env qe ab reg qp pre).2) :
    ∃ s, env.lookupInvoice ab.paymentHash = some (some s) ∧ 0 < s := by
  unfold afterChecks at hmem
  dsimp only at hmem
  split at hmem
  · simp at hmem
  · split at hmem
    · simp at hmem
    · split at hmem
      · simp at hmem
      · rename_i s heq hpos
        exact ⟨s, heq, by omega⟩

theorem afterChecks_mkinv (cfg : Config) (env : Env) (qe : NEvent) (ab : ActiveBid)
    (reg : Registry) (qp : QuestionPayload) (pre : String) (a : Int) (d : String)
    (hmem : Action.makeInvoice a d ∈ (afterChecks cfg env qe ab reg qp pre).2) :
    ∃ answer fs,
      env.onQuestion (askOf ab.askEvent) ab.bid ⟨qe.id, qp.content, pre, qp.tags⟩
        ab.history = some answer ∧
      answer.followup_sats = some fs ∧ 0 < fs ∧ a = fs * 1000 ∧
      d = "Followup question for " ++ ab.contextId := by
  unfold afterChecks at hmem
  dsimp only at hmem
  split at hmem
  · simp at hmem
  · split at hmem
    · simp at hmem
    · split at hmem
      · simp at hmem
      · split at hmem
        · simp at hmem
        · rename_i answer hans
          split at hmem
          · rename_i hreq
            split at hmem
            · rename_i fs hfs
              have hfs2 : fs ≠ 0 ∧ 0 < fs := by
                have hr := hreq
                rw [followupRequested, hfs] at hr
                exact of_decide_eq_true hr
              split at hmem
              · simp only [List.mem_cons] at hmem
                rcases hmem with h1 | h1 | h1 | h1
                · simp at h1
                · simp at h1
                · rcases (Action.makeInvoice.injEq _ _ _ _).mp h1 with ⟨ha, hd⟩
                  exact ⟨answer, fs, hans, hfs, hfs2.2, ha, hd⟩
                · simp at h1
              · simp only [List.mem_cons] at hmem
                rcases hmem with h1 | h1 | h1 | h1
                · simp at h1
                · simp at h1
                · rcases (Action.makeInvoice.injEq _ _ _ _).mp h1 with ⟨ha, hd⟩
                  exact ⟨answer, fs, hans, hfs, hfs2.2, ha, hd⟩
                · exact absurd h1 (publishAnswer_no_mkinv _ _ _ _ _ _ _ _ _ _)
            · rename_i hfs
              have hff : followupRequested answer = false := by
                rw [followupRequested, hfs]
              rw [hff] at hreq
              simp at hreq
          · simp only [List.mem_cons] at hmem
            rcases hmem with h1 | h1 | h1
            · simp at h1
            · simp at h1
            · exact absurd h1 (publishAnswer_no_mkinv _ _ _ _ _ _ _ _ _ _)

/-- Case analysis on a question turn: the trace is empty (early
validation/decryption failure), a lone failed preimage check, or a
passed preimage check followed by the post-check phase. -/
theorem hq_trace_cases (cfg : Config) (env : Env) (qe : NEvent) (ab : ActiveBid)
    (reg : Registry) :
    (handleQuestionEvent cfg env qe ab reg = (reg, [])) ∨
    (∃ qp pre, decryptPayload env ab qe = some qp ∧ extractPreimage qp = some pre ∧
      env.hashHex pre ≠ some ab.paymentHash ∧
      handleQuestionEvent cfg env qe ab reg =
        (reg, [Action.checkPreimage pre ab.paymentHash])) ∨
    (∃ qp pre, decryptPayload env ab qe = some qp ∧ extractPreimage qp = some pre ∧
      pre ≠ "" ∧ env.hashHex pre = some ab.paymentHash ∧
      handleQuestionEvent cfg env qe ab reg =
        ((afterChecks cfg env qe ab reg qp pre).1,
          Action.checkPreimage pre ab.paymentHash ::
            (afterChecks cfg env qe ab reg qp pre).2)) := by
  unfold handleQuestionEvent
  dsimp only
  split
  · exact Or.inl rfl
  · split
    · exact Or.inl rfl
    · split
      · exact Or.inl rfl
      · split
        · exact Or.inl rfl
        · rename_i qpOpt qp hqp preOpt pre hp
          split
          · exact Or.inl rfl
          · split
            · rename_i hpre hh
              exact Or.inr (Or.inl ⟨qp, pre, hqp, hp, hh, rfl⟩)
            · rename_i hpre hh
              exact Or.inr (Or.inr ⟨qp, pre, hqp, hp, hpre, not_not.mp hh, rfl⟩)

/-! ## Concrete fixtures used by witnesses and counterexamples -/

/-- A concrete bid decision. -/
def bidD : Bid := ⟨"bid content", 10, none⟩

/-- A concrete ask event. -/
def askEvD : NEvent := ⟨⟨"PKA", 50, 20174, [["t", "test"]], "ask content"⟩, "askid"⟩

/-- A concrete outer bid event. -/
def bidEvD : NEvent := ⟨⟨"BPK", 55, 20175, [["e", "askid"]], "bidcipher"⟩, "bidid"⟩

/-- A concrete signed bid payload event whose id is the initial context
id "ctx". -/
def bidPayloadEvD : NEvent := ⟨⟨"EPK", 55, 20176, [["invoice", "lnbc0"]], "bid content"⟩, "ctx"⟩

/-- The question subscription armed for `bidPayloadEvD`. -/
def subD : Subscription := ⟨["wss://q"], [20177], ["ctx"]⟩

/-- A concrete armed conversation with payment hash "HASH" and context
id "ctx". -/
def abD : ActiveBid := ⟨askEvD, bidEvD, bidPayloadEvD, "PKA", "HASH", 60, subD, 600000, bidD, [], "ctx"⟩

/-- A concrete question event tagging the context id "ctx". -/
def qeD : NEvent := ⟨⟨"SKQ", 70, 20177, [["e", "ctx"]], "CIPH"⟩, "qid"⟩

/-- A concrete expert configuration. -/
def cfgD : Config := ⟨"EPK", ["wss://a"], ["wss://q"], ["ai"], 600⟩

/-- A happy-path oracle environment: decryption yields a payload whose
preimage hashes to "HASH", the invoice is settled, the handler answers
with a 7-sat follow-up, the wallet mints ("lnbc1", "HASH2"), and both
publishes succeed on one relay. -/
def envH : Env :=
  { now := 100
    computeId := fun _ => "AID"
    onAsk := fun _ => some bidD
    onQuestion := fun _ _ _ _ => some ⟨"answer text", none, some 7⟩
    makeInvoice := fun _ _ => some ("lnbc1", "HASH2")
    lookupInvoice := fun _ => some (some 123)
    bidPubkey := "BPK"
    answerPubkey := "APK"
    convKeyBid := fun p => "ckb" ++ p
    convKeyExpert := fun p => "cke" ++ p
    encrypt := fun _ p => some ("enc" ++ p)
    decrypt := fun _ c => some c
    parseQuestionPayload := fun _ => some ⟨"qcontent", [["preimage", "deadbeef"]]⟩
    eventJson := fun e => e.id
    payloadJson := fun p => p.content
    hashHex := fun _ => some "HASH"
    bidPublishOk := 1
    answerPublishOk := 1 }

/-- A question event whose first `e`-tag is wrong but whose second
`e`-tag matches the context id "ctx". -/
def qeWrongTag : NEvent :=
  ⟨⟨"SKQ", 70, 20177, [["e", "wrong"], ["e", "ctx"]], "CIPH"⟩, "qid2"⟩

/-- A configuration with an empty hashtag set. -/
def cfgNoTags : Config := ⟨"EPK", ["wss://a"], ["wss://q"], [], 600⟩

/-! ## Claim theorems -/

/-- C1: in a question turn, no answer event is published unless the
SHA-256 of the hex-decoded preimage extracted from the decrypted
payload equals the conversation's payment hash and `lookup_invoice` on
that hash returns a present, positive `settled_at`; moreover every
occurrence of the invoice lookup in the action trace queries exactly
the stored payment hash and is strictly preceded by a successful
preimage check, so a turn failing either check aborts with no
publication. -/
theorem hq_payment_required (cfg : Config) (env : Env) (qe : NEvent) (ab : ActiveBid)
    (reg : Registry) :
    (∀ (i : Nat) (h : String),
      (handleQuestionEvent cfg env qe ab reg).2.get? i = some (Action.lookupInvoice h) →
      h = ab.paymentHash ∧
      ∃ j, j < i ∧ ∃ pre,
        (handleQuestionEvent cfg env qe ab reg).2.get? j =
          some (Action.checkPreimage pre ab.paymentHash) ∧
        (∃ qp, decryptPayload env ab qe = some qp ∧ extractPreimage qp = some pre) ∧
        env.hashHex pre = some ab.paymentHash) ∧
    (∀ (rl : List String) (ev : NEvent),
      Action.publish rl ev ∈ (handleQuestionEvent cfg env qe ab reg).2 →
      (∃ qp pre, decryptPayload env ab qe = some qp ∧ extractPreimage qp = some pre ∧
        env.hashHex pre = some ab.paymentHash) ∧
      ∃ s, env.lookupInvoice ab.paymentHash = some (some s) ∧ 0 < s) := by
  rcases hq_trace_cases cfg env qe ab reg with htr |
    ⟨qp, pre, hqp, hp, hh, htr⟩ | ⟨qp, pre, hqp, hp, hpre, hh, htr⟩
  · constructor
    · intro i h hget
      rw [htr] at hget
      simp at hget
    · intro rl ev hmem
      rw [htr] at hmem
      simp at hmem
  · constructor
    · intro i h hget
      rw [htr] at hget
      cases i with
      | zero => simp at hget
      | succ n => simp at hget
    · intro rl ev hmem
      rw [htr] at hmem
      simp at hmem
  · constructor
    · intro i h hget
      rw [htr] at hget
      cases i with
      | zero => simp at hget
      | succ n =>
        have hget2 : (afterChecks cfg env qe ab reg qp pre).2.get? n =
            some (Action.lookupInvoice h) := by simpa using hget
        have hmem := List.get?_mem hget2
        have hkey := afterChecks_lookup_key cfg env qe ab reg qp pre h hmem
        refine ⟨hkey, 0, Nat.succ_pos n, pre, ?_, ⟨qp, hqp, hp⟩, hh⟩
        simp [htr]
    · intro rl ev hmem
      rw [htr] at hmem
      rcases List.mem_cons.mp hmem with h1 | h1
      · simp at h1
      · exact ⟨⟨qp, pre, hqp, hp, hh⟩,
          afterChecks_publish_paid cfg env qe ab reg qp pre rl ev h1⟩

/-- Witness for C1 at a happy-path input: the published answer implies
the preimage facts and the positive settlement. -/
theorem hq_payment_required_witness :
    (∃ qp pre, decryptPayload envH abD qeD = some qp ∧ extractPreimage qp = some pre ∧
      envH.hashHex pre = some abD.paymentHash) ∧
    ∃ s, envH.lookupInvoice abD.paymentHash = some (some s) ∧ 0 < s :=
  (hq_payment_required cfgD envH qeD abD []).2 ["wss://q"]
    ⟨⟨"APK", 100, 20178, [["e", "qid"]], "encanswer text"⟩, "AID"⟩ (by decide)

/-- C10: validating an inbound question event consults only the first
`e`-tag; if it is absent or differs from the conversation's current
context id the event is discarded — the turn returns the registry
unchanged with no actions — regardless of any later `e`-tag. -/
theorem hq_first_etag_only (cfg : Config) (env : Env) (qe : NEvent) (ab : ActiveBid)
    (reg : Registry) (h : firstETagValue qe ≠ some ab.contextId) :
    handleQuestionEvent cfg env qe ab reg = (reg, []) := by
  by_cases hk : qe.kind = 20177
  · simp [handleQuestionEvent, hk, h]
  · simp [handleQuestionEvent, hk]

/-- Witness for C10: an event whose first `e`-tag is "wrong" is dropped
even though its second `e`-tag carries the matching context id. -/
theorem hq_first_etag_only_witness :
    (["e", abD.contextId] ∈ qeWrongTag.tags) ∧
    handleQuestionEvent cfgD envH qeWrongTag abD [] = ([], []) :=
  ⟨by decide, hq_first_etag_only cfgD envH qeWrongTag abD [] (by decide)⟩

/-- C8: when the arming timer of a conversation fires, the question
subscription is closed and the conversation is removed from the
registry, and no event is published; this holds for both the
bid-phase and the follow-up timer callbacks. -/
theorem timeout_cleanup (key : String) (sub : Subscription) (reg : Registry) :
    Registry.get? (questionTimerFire key sub reg).1 key = none ∧
    (questionTimerFire key sub reg).2 = [Action.closeSub sub, Action.deleteKey key] ∧
    (∀ (rl : List String) (ev : NEvent),
      Action.publish rl ev ∉ (questionTimerFire key sub reg).2) ∧
    Registry.get? (followupTimerFire key sub reg).1 key = none ∧
    (followupTimerFire key sub reg).2 = [Action.closeSub sub, Action.deleteKey key] ∧
    (∀ (rl : List String) (ev : NEvent),
      Action.publish rl ev ∉ (followupTimerFire key sub reg).2) := by
  refine ⟨Registry.get?_eraseKey_self reg key, rfl, ?_,
    Registry.get?_eraseKey_self reg key, rfl, ?_⟩ <;>
  · intro rl ev
    simp [questionTimerFire, followupTimerFire]

/-- Witness for C8: concrete timer expiry empties the registry and
closes the armed subscription without publishing. -/
theorem timeout_cleanup_witness :
    Registry.get? (questionTimerFire "ctx" subD [("ctx", abD)]).1 "ctx" = none ∧
    (followupTimerFire "ctx" subD [("ctx", abD)]).2 =
      [Action.closeSub subD, Action.deleteKey "ctx"] :=
  ⟨(timeout_cleanup "ctx" subD [("ctx", abD)]).1,
    (timeout_cleanup "ctx" subD [("ctx", abD)]).2.2.2.2.1⟩

/-- C3 counterexample: with an empty configured hashtag set, `start()`
does not omit the topic subscription — it still opens two
subscriptions, so the claim that only the direct-address subscription
is opened fails. -/
theorem start_topic_sub_not_omitted :
    ¬ ((startSubscriptions cfgNoTags 100).length = 1) := by decide

/-- C3 amended: `start()` always opens both ask subscriptions on the
ask relays, each filtering kind 20174 with since = now − 10; the first
carries the `#t` filter exactly when the hashtag set is non-empty (an
empty set merely drops the `#t` constraint, it does not omit the
subscription), and the second filters `#p` = expert pubkey. -/
theorem start_subscriptions_spec (cfg : Config) (nowTime : Int) :
    (startSubscriptions cfg nowTime).length = 2 ∧
    (∀ rf ∈ startSubscriptions cfg nowTime, rf.1 = cfg.askRelays ∧
      rf.2.kinds = [20174] ∧ rf.2.since = some (nowTime - 10)) ∧
    (cfg.hashtags = [] →
      ((startSubscriptions cfg nowTime).get? 0).map (fun rf => rf.2.tagT) = some none) ∧
    (cfg.hashtags ≠ [] →
      ((startSubscriptions cfg nowTime).get? 0).map (fun rf => rf.2.tagT) =
        some (some cfg.hashtags)) ∧
    ((startSubscriptions cfg nowTime).get? 1).map (fun rf => rf.2.tagP) =
      some (some [cfg.expertPubkey]) ∧
    ((startSubscriptions cfg nowTime).get? 0).map (fun rf => rf.2.tagP) = some none := by
  refine ⟨rfl, ?_, ?_, ?_, rfl, rfl⟩
  · intro rf hrf
    simp only [startSubscriptions, List.mem_cons, List.mem_singleton] at hrf
    rcases hrf with h | h | h
    · subst h; exact ⟨rfl, rfl, rfl⟩
    · subst h; exact ⟨rfl, rfl, rfl⟩
    · simp at h
  · intro hempty
    simp [startSubscriptions, hempty]
  · intro hne
    have : 0 < cfg.hashtags.length := List.length_pos.mpr hne
    simp [startSubscriptions, this]

/-- Witness for C3 amended: with hashtags ["ai"] the first filter
carries `#t = ["ai"]`; with no hashtags it carries no `#t` filter. -/
theorem start_subscriptions_spec_witness :
    ((startSubscriptions cfgD 100).get? 0).map (fun rf => rf.2.tagT) =
      some (some cfgD.hashtags) ∧
    ((startSubscriptions cfgNoTags 100).get? 0).map (fun rf => rf.2.tagT) = some none :=
  ⟨(start_subscriptions_spec cfgD 100).2.2.2.1 (by decide),
   (start_subscriptions_spec cfgNoTags 100).2.2.1 rfl⟩

/-- C4: for any conversation and turn, the `onevent` wrappers close the
question subscription, cancel the timer and remove the registry entry
before the answer handler can be invoked (the handler-call action can
only occur strictly after those three actions in the trace), and a
question event that finds no registry entry under its context id is
dropped without any action. -/
theorem single_shot_per_turn (cfg : Config) (env : Env) (key : String) (qe : NEvent)
    (ab : ActiveBid) (reg : Registry) :
    (Registry.get? reg key = none → questionSubOnEvent cfg env key qe reg = (reg, [])) ∧
    (Registry.get? reg key = some ab →
      (questionSubOnEvent cfg env key qe reg).2.get? 0 =
        some (Action.closeSub ab.subscription) ∧
      (questionSubOnEvent cfg env key qe reg).2.get? 1 = some Action.cancelTimer ∧
      (questionSubOnEvent cfg env key qe reg).2.get? 2 = some (Action.deleteKey key) ∧
      (∀ (i : Nat) (q : Question), (questionSubOnEvent cfg env key qe reg).2.get? i =
        some (Action.callOnQuestion q) → 2 < i)) ∧
    ((followupSubOnEvent cfg env key qe ab reg).2.get? 0 =
        some (Action.closeSub ab.subscription) ∧
      (followupSubOnEvent cfg env key qe ab reg).2.get? 1 = some Action.cancelTimer ∧
      (followupSubOnEvent cfg env key qe ab reg).2.get? 2 = some (Action.deleteKey key) ∧
      (∀ (i : Nat) (q : Question), (followupSubOnEvent cfg env key qe ab reg).2.get? i =
        some (Action.callOnQuestion q) → 2 < i)) := by
  refine ⟨?_, ?_, ?_⟩
  · intro hnone
    unfold questionSubOnEvent
    rw [hnone]
  · intro hsome
    unfold questionSubOnEvent
    rw [hsome]
    refine ⟨rfl, rfl, rfl, ?_⟩
    intro i q hget
    match i with
    | 0 => simp at hget
    | 1 => simp at hget
    | 2 => simp at hget
    | n + 3 => omega
  · unfold followupSubOnEvent
    refine ⟨rfl, rfl, rfl, ?_⟩
    intro i q hget
    match i with
    | 0 => simp at hget
    | 1 => simp at hget
    | 2 => simp at hget
    | n + 3 => omega

/-- Witness for C4: a question event under an unknown key is dropped
with no actions, and in a real turn the registry deletion is the third
trace action, before any handler call. -/
theorem single_shot_per_turn_witness :
    questionSubOnEvent cfgD envH "nokey" qeD [("ctx", abD)] = ([("ctx", abD)], []) ∧
    (questionSubOnEvent cfgD envH "ctx" qeD [("ctx", abD)]).2.get? 2 =
      some (Action.deleteKey "ctx") :=
  ⟨(single_shot_per_turn cfgD envH "nokey" qeD abD [("ctx", abD)]).1 (by decide),
   ((single_shot_per_turn cfgD envH "ctx" qeD abD [("ctx", abD)]).2.1 (by decide)).2.2.1⟩

/-- C9: every bid invoice is minted for exactly `bid_sats × 1000`
millisats with description "Bid for ask <ask.id>", and a follow-up
invoice mint occurs in a question turn exactly when the handler's
answer carries a positive `followup_sats`, for exactly
`followup_sats × 1000` millisats. -/
theorem invoice_amounts (cfg : Config) (env : Env) (askEvent qe : NEvent)
    (ab : ActiveBid) (reg reg2 : Registry) :
    (∀ (a : Int) (d : String),
      Action.makeInvoice a d ∈ (handleAskEvent cfg env askEvent reg).2 →
      ∃ bid, env.onAsk (askOf askEvent) = some bid ∧ a = bid.bid_sats * 1000 ∧
        d = "Bid for ask " ++ askEvent.id) ∧
    (∀ (a : Int) (d : String),
      Action.makeInvoice a d ∈ (handleQuestionEvent cfg env qe ab reg2).2 →
      ∃ qp pre answer fs, decryptPayload env ab qe = some qp ∧
        extractPreimage qp = some pre ∧
        env.onQuestion (askOf ab.askEvent) ab.bid ⟨qe.id, qp.content, pre, qp.tags⟩
          ab.history = some answer ∧
        answer.followup_sats = some fs ∧ 0 < fs ∧ a = fs * 1000 ∧
        d = "Followup question for " ++ ab.contextId) ∧
    (∀ (qp : QuestionPayload) (pre : String) (answer : Answer) (fs s : Int),
      qe.kind = 20177 → firstETagValue qe = some ab.contextId →
      decryptPayload env ab qe = some qp → extractPreimage qp = some pre → pre ≠ "" →
      env.hashHex pre = some ab.paymentHash →
      env.lookupInvoice ab.paymentHash = some (some s) → 0 < s →
      env.onQuestion (askOf ab.askEvent) ab.bid ⟨qe.id, qp.content, pre, qp.tags⟩
        ab.history = some answer →
      answer.followup_sats = some fs → 0 < fs →
      Action.makeInvoice (fs * 1000) ("Followup question for " ++ ab.contextId) ∈
        (handleQuestionEvent cfg env qe ab reg2).2) := by
  refine ⟨?_, ?_, ?_⟩
  · intro a d hmem
    unfold handleAskEvent setupQuestionSubscription at hmem
    dsimp only at hmem
    split at hmem
    · simp at hmem
    · split at hmem
      · simp at hmem
      · rename_i bid hbid
        split at hmem
        · simp only [List.mem_singleton] at hmem
          rcases (Action.makeInvoice.injEq _ _ _ _).mp hmem with ⟨ha, hd⟩
          exact ⟨bid, hbid, ha, hd⟩
        · split at hmem
          · simp only [List.mem_singleton] at hmem
            rcases (Action.makeInvoice.injEq _ _ _ _).mp hmem with ⟨ha, hd⟩
            exact ⟨bid, hbid, ha, hd⟩
          · split at hmem
            · simp only [List.mem_cons] at hmem
              rcases hmem with h1 | h1 | h1 | h1 | h1
              · rcases (Action.makeInvoice.injEq _ _ _ _).mp h1 with ⟨ha, hd⟩
                exact ⟨bid, hbid, ha, hd⟩
              · simp at h1
              · simp at h1
              · simp at h1
              · simp at h1
            · simp only [List.mem_cons] at hmem
              rcases hmem with h1 | h1 | h1
              · rcases (Action.makeInvoice.injEq _ _ _ _).mp h1 with ⟨ha, hd⟩
                exact ⟨bid, hbid, ha, hd⟩
              · simp at h1
              · simp at h1
  · intro a d hmem
    rcases hq_trace_cases cfg env qe ab reg2 with htr |
      ⟨qp, pre, hqp, hp, hh, htr⟩ | ⟨qp, pre, hqp, hp, hpre, hh, htr⟩
    · rw [htr] at hmem
      simp at hmem
    · rw [htr] at hmem
      simp at hmem
    · rw [htr] at hmem
      rcases List.mem_cons.mp hmem with h1 | h1
      · simp at h1
      · rcases afterChecks_mkinv cfg env qe ab reg2 qp pre a d h1 with
          ⟨answer, fs, hans, hfs, hfspos, ha, hd⟩
        exact ⟨qp, pre, answer, fs, hqp, hp, hans, hfs, hfspos, ha, hd⟩
  · intro qp pre answer fs s hk he hd hp hpre hh hl hs hq hfs hfspos
    have hknot : ¬ (qe.kind ≠ 20177) := by simp [hk]
    have henot : ¬ (firstETagValue qe ≠ some ab.contextId) := by simp [he]
    have hhnot : ¬ (env.hashHex pre ≠ some ab.paymentHash) := by simp [hh]
    have hsnot : ¬ (s ≤ 0) := by omega
    have hreq : followupRequested answer = true := by
      rw [followupRequested, hfs]
      exact decide_eq_true ⟨by omega, hfspos⟩
    unfold handleQuestionEvent afterChecks
    dsimp only
    simp only [if_neg hknot, if_neg henot, hd, hp, if_neg hpre, if_neg hhnot, hl,
      if_neg hsnot, hq, if_pos hreq, hfs]
    cases hmk : env.makeInvoice (fs * 1000) ("Followup question for " ++ ab.contextId) with
    | none => simp
    | some invph => simp

/-- Witness for C9: the concrete bid mints 10000 msat with the right
description, and the concrete question turn mints the 7000-msat
follow-up. -/
theorem invoice_amounts_witness :
    (∃ bid, envH.onAsk (askOf askEvD) = some bid ∧ (10000 : Int) = bid.bid_sats * 1000 ∧
      "Bid for ask askid" = "Bid for ask " ++ askEvD.id) ∧
    Action.makeInvoice (7 * 1000) ("Followup question for " ++ abD.contextId) ∈
      (handleQuestionEvent cfgD envH qeD abD []).2 :=
  ⟨(invoice_amounts cfgD envH askEvD qeD abD [] []).1 10000 "Bid for ask askid" (by decide),
   (invoice_amounts cfgD envH askEvD qeD abD [] []).2.2
     ⟨"qcontent", [["preimage", "deadbeef"]]⟩ "deadbeef"
     ⟨"answer text", none, some 7⟩ 7 123 rfl (by decide) rfl rfl (by decide) rfl rfl
     (by decide) rfl rfl (by decide)⟩

/-- The unsigned bid payload event built in `handleAskEvent`
(expert.ts lines 224–234). -/
def bidPayloadU (cfg : Config) (env : Env) (bid : Bid) (invoice : String) : UEvent :=
  ⟨cfg.expertPubkey, env.now, 20176,
    [["invoice", invoice]] ++ cfg.questionRelays.map (fun r => ["relay", r]) ++
      bid.tags.getD [], bid.content⟩

/-- The signed bid payload event (expert.ts line 237). -/
def signedBidPayloadOf (cfg : Config) (env : Env) (bid : Bid) (invoice : String) : NEvent :=
  ⟨bidPayloadU cfg env bid invoice, env.computeId (bidPayloadU cfg env bid invoice)⟩

/-- The signed outer bid event (expert.ts lines 260–269). -/
def outerBidEventOf (env : Env) (askEvent : NEvent) (enc : String) : NEvent :=
  ⟨⟨env.bidPubkey, env.now, 20175, [["e", askEvent.id]], enc⟩,
    env.computeId ⟨env.bidPubkey, env.now, 20175, [["e", askEvent.id]], enc⟩⟩

/-- The conversation record stored by `setupQuestionSubscription` for a
successfully published bid (expert.ts lines 390–403). -/
def armedBidOf (cfg : Config) (env : Env) (askEvent : NEvent) (bid : Bid)
    (invoice payment_hash enc : String) : ActiveBid :=
  { askEvent := askEvent, bidEvent := outerBidEventOf env askEvent enc,
    bidPayloadEvent := signedBidPayloadOf cfg env bid invoice,
    sessionPubkey := askEvent.pubkey, paymentHash := payment_hash, timestamp := env.now,
    subscription := ⟨cfg.questionRelays, [20177], [(signedBidPayloadOf cfg env bid invoice).id]⟩,
    timeoutMs := cfg.bidTimeout * 1000, bid := bid, history := [],
    contextId := (signedBidPayloadOf cfg env bid invoice).id }

/-- Case analysis on the bid pipeline: early abort with an empty trace,
abort after the invoice mint, or a publish whose outcome is gated on
the number of accepting relays. -/
theorem ha_cases (cfg : Config) (env : Env) (askEvent : NEvent) (reg : Registry) :
    (handleAskEvent cfg env askEvent reg = (reg, [])) ∨
    (∃ bid, env.onAsk (askOf askEvent) = some bid ∧
      handleAskEvent cfg env askEvent reg =
        (reg, [Action.makeInvoice (bid.bid_sats * 1000) ("Bid for ask " ++ askEvent.id)])) ∨
    (∃ bid invoice payment_hash enc,
      askEvent.kind = 20174 ∧
      env.onAsk (askOf askEvent) = some bid ∧
      env.makeInvoice (bid.bid_sats * 1000) ("Bid for ask " ++ askEvent.id) =
        some (invoice, payment_hash) ∧
      env.encrypt (env.convKeyBid askEvent.pubkey)
        (env.eventJson (signedBidPayloadOf cfg env bid invoice)) = some enc ∧
      ((¬ 0 < env.bidPublishOk ∧
        handleAskEvent cfg env askEvent reg =
          (reg, [Action.makeInvoice (bid.bid_sats * 1000) ("Bid for ask " ++ askEvent.id),
            Action.publish cfg.askRelays (outerBidEventOf env askEvent enc)])) ∨
       (0 < env.bidPublishOk ∧
        handleAskEvent cfg env askEvent reg =
          (Registry.setKey reg (signedBidPayloadOf cfg env bid invoice).id
              (armedBidOf cfg env askEvent bid invoice payment_hash enc),
            [Action.makeInvoice (bid.bid_sats * 1000) ("Bid for ask " ++ askEvent.id),
              Action.publish cfg.askRelays (outerBidEventOf env askEvent enc),
              Action.subscribe ⟨cfg.questionRelays, [20177],
                [(signedBidPayloadOf cfg env bid invoice).id]⟩,
              Action.startTimer (cfg.bidTimeout * 1000)])))) := by
  unfold handleAskEvent setupQuestionSubscription
  dsimp only
  split
  · exact Or.inl rfl
  · rename_i hk
    split
    · exact Or.inl rfl
    · rename_i bidOpt bid hbid
      split
      · exact Or.inr (Or.inl ⟨bid, hbid, rfl⟩)
      · rename_i invOpt invoice payment_hash hinv
        split
        · exact Or.inr (Or.inl ⟨bid, hbid, rfl⟩)
        · rename_i encOpt enc henc
          split
          · rename_i hpos
            exact Or.inr (Or.inr ⟨bid, invoice, payment_hash, enc, not_not.mp hk, hbid,
              hinv, henc, Or.inr ⟨hpos, rfl⟩⟩)
          · rename_i hpos
            exact Or.inr (Or.inr ⟨bid, invoice, payment_hash, enc, not_not.mp hk, hbid,
              hinv, henc, Or.inl ⟨hpos, rfl⟩⟩)

/-- C6: if publishing the bid succeeds on zero relays, no conversation
is registered and no question subscription or timer is armed; if it
succeeds on at least one relay, exactly one new conversation is
registered under the signed bid payload event's id, with a question
subscription filtering kind 20177 on `#e` = that id over the question
relays and a timer of `bid_timeout` seconds. -/
theorem bid_publish_gate (cfg : Config) (env : Env) (askEvent : NEvent) (reg : Registry) :
    (env.bidPublishOk = 0 →
      (handleAskEvent cfg env askEvent reg).1 = reg ∧
      (∀ s, Action.subscribe s ∉ (handleAskEvent cfg env askEvent reg).2) ∧
      (∀ ms, Action.startTimer ms ∉ (handleAskEvent cfg env askEvent reg).2)) ∧
    (∀ (rl : List String) (ev : NEvent), 0 < env.bidPublishOk →
      Action.publish rl ev ∈ (handleAskEvent cfg env askEvent reg).2 →
      ∃ ab : ActiveBid,
        (handleAskEvent cfg env askEvent reg).1 =
          Registry.setKey reg ab.bidPayloadEvent.id ab ∧
        ab.contextId = ab.bidPayloadEvent.id ∧
        ab.bidPayloadEvent.kind = 20176 ∧
        ab.history = [] ∧
        ab.sessionPubkey = askEvent.pubkey ∧
        ab.subscription = ⟨cfg.questionRelays, [20177], [ab.bidPayloadEvent.id]⟩ ∧
        ab.timeoutMs = cfg.bidTimeout * 1000 ∧
        Action.subscribe ab.subscription ∈ (handleAskEvent cfg env askEvent reg).2 ∧
        Action.startTimer (cfg.bidTimeout * 1000) ∈
          (handleAskEvent cfg env askEvent reg).2) := by
  rcases ha_cases cfg env askEvent reg with heq | ⟨bid, hbid, heq⟩ |
    ⟨bid, invoice, payment_hash, enc, hk, hbid, hinv, henc,
      ⟨hpos, heq⟩ | ⟨hpos, heq⟩⟩
  · constructor
    · intro h0
      rw [heq]
      exact ⟨rfl, by simp, by simp⟩
    · intro rl ev hpos hmem
      rw [heq] at hmem
      simp at hmem
  · constructor
    · intro h0
      rw [heq]
      exact ⟨rfl, by simp, by simp⟩
    · intro rl ev hpos hmem
      rw [heq] at hmem
      simp at hmem
  · constructor
    · intro h0
      rw [heq]
      exact ⟨rfl, by simp, by simp⟩
    · intro rl ev hpos2 hmem
      exact absurd hpos2 hpos
  · constructor
    · intro h0
      exact absurd hpos (by omega)
    · intro rl ev hpos2 hmem
      rw [heq]
      refine ⟨armedBidOf cfg env askEvent bid invoice payment_hash enc,
        ?_, ?_, ?_, ?_, ?_, ?_, ?_, ?_, ?_⟩
      all_goals first
        | rfl
        | simp [armedBidOf]

/-- Witness for C6: with zero accepted relays the registry stays empty;
with one accepted relay the timer of `bid_timeout` seconds is armed. -/
theorem bid_publish_gate_witness :
    (handleAskEvent cfgD { envH with bidPublishOk := 0 } askEvD []).1 = [] ∧
    Action.startTimer (cfgD.bidTimeout * 1000) ∈ (handleAskEvent cfgD envH askEvD []).2 := by
  refine ⟨((bid_publish_gate cfgD { envH with bidPublishOk := 0 } askEvD []).1 rfl).1, ?_⟩
  rcases (bid_publish_gate cfgD envH askEvD []).2 ["wss://a"]
      ⟨⟨"BPK", 100, 20175, [["e", "askid"]], "encAID"⟩, "AID"⟩ (by decide) (by decide) with
    ⟨ab, h1, h2, h3, h4, h5, h6, h7, h8, h9⟩
  exact h9

/-- C7: the inner bid payload event carries kind 20176, the expert
long-term pubkey, the handler's bid content and the tag list
[invoice] ++ [relay…] ++ custom; the outer bid event carries kind
20175, the ephemeral pubkey (distinct from the expert pubkey), the
single `e` tag naming the ask, and as content the NIP-44 ciphertext of
the signed payload JSON under the conversation key derived for the
ask's pubkey. -/
theorem bid_event_structure (cfg : Config) (env : Env) (askEvent : NEvent) (reg : Registry)
    (rl : List String) (ev : NEvent)
    (hmem : Action.publish rl ev ∈ (handleAskEvent cfg env askEvent reg).2)
    (heph : env.bidPubkey ≠ cfg.expertPubkey) :
    ∃ (pl : NEvent) (bid : Bid) (invoice : String),
      env.onAsk (askOf askEvent) = some bid ∧
      rl = cfg.askRelays ∧
      pl.kind = 20176 ∧ pl.pubkey = cfg.expertPubkey ∧ pl.content = bid.content ∧
      pl.tags = [["invoice", invoice]] ++ cfg.questionRelays.map (fun r => ["relay", r]) ++
        bid.tags.getD [] ∧
      (∃ payment_hash, env.makeInvoice (bid.bid_sats * 1000)
        ("Bid for ask " ++ askEvent.id) = some (invoice, payment_hash)) ∧
      ev.kind = 20175 ∧ ev.pubkey = env.bidPubkey ∧
      ev.pubkey ≠ cfg.expertPubkey ∧
      ev.tags = [["e", askEvent.id]] ∧
      env.encrypt (env.convKeyBid askEvent.pubkey) (env.eventJson pl) = some ev.content := by
  rcases ha_cases cfg env askEvent reg with heq | ⟨bid, hbid, heq⟩ |
    ⟨bid, invoice, payment_hash, enc, hk, hbid, hinv, henc,
      ⟨hpos, heq⟩ | ⟨hpos, heq⟩⟩
  · rw [heq] at hmem
    simp at hmem
  · rw [heq] at hmem
    simp at hmem
  · rw [heq] at hmem
    simp only [List.mem_cons, List.mem_singleton] at hmem
    rcases hmem with h1 | h1 | h1
    · simp at h1
    · rcases (Action.publish.injEq _ _ _ _).mp h1 with ⟨hrl, hev⟩
      subst hev
      exact ⟨signedBidPayloadOf cfg env bid invoice, bid, invoice, hbid, hrl,
        rfl, rfl, rfl, rfl, ⟨payment_hash, hinv⟩, rfl, rfl, heph, rfl, henc⟩
    · simp at h1
  · rw [heq] at hmem
    simp only [List.mem_cons, List.mem_singleton] at hmem
    rcases hmem with h1 | h1 | h1 | h1 | h1
    · simp at h1
    · rcases (Action.publish.injEq _ _ _ _).mp h1 with ⟨hrl, hev⟩
      subst hev
      exact ⟨signedBidPayloadOf cfg env bid invoice, bid, invoice, hbid, hrl,
        rfl, rfl, rfl, rfl, ⟨payment_hash, hinv⟩, rfl, rfl, heph, rfl, henc⟩
    · simp at h1
    · simp at h1
    · simp at h1

/-- Witness for C7: the concrete happy-path published bid event has the
claimed structure; in particular its payload tags and pubkeys match. -/
theorem bid_event_structure_witness :
    Action.publish cfgD.askRelays
      ⟨⟨"BPK", 100, 20175, [["e", "askid"]], "encAID"⟩, "AID"⟩ ∈
      (handleAskEvent cfgD envH askEvD []).2 ∧
    envH.bidPubkey ≠ cfgD.expertPubkey := by
  refine ⟨by decide, ?_⟩
  rcases bid_event_structure cfgD envH askEvD [] cfgD.askRelays
      ⟨⟨"BPK", 100, 20175, [["e", "askid"]], "encAID"⟩, "AID"⟩ (by decide) (by decide) with
    ⟨pl, bid, invoice, hbid, hrl, h1, h2, h3, h4, h5, h6, h7, h8, h9, h10⟩
  exact h8

/-- C2 counterexample: in a turn where the follow-up invoice was minted
but the answer publish succeeded on zero relays, the conversation is
nevertheless re-armed under the answer event id — the code never
consults the publish success count before
`setupFollowupSubscription`. -/
theorem rearm_despite_zero_publish :
    ({ envH with answerPublishOk := 0 } : Env).answerPublishOk = 0 ∧
    (Registry.get?
      (handleQuestionEvent cfgD { envH with answerPublishOk := 0 } qeD abD []).1
      "AID").isSome = true := ⟨rfl, by decide⟩

/-- C2 amended: after an answer turn in which a follow-up invoice was
minted (with a non-empty invoice string), the conversation is re-armed
under the answer event id regardless of how many relays accepted the
answer — in particular even when publication succeeded on zero
relays.  The environment's `answerPublishOk` is unconstrained here. -/
theorem rearm_independent_of_publish (cfg : Config) (env : Env) (qe : NEvent)
    (ab : ActiveBid) (reg : Registry) (qp : QuestionPayload) (pre : String)
    (s fs : Int) (answer : Answer) (inv ph enc : String)
    (hk : qe.kind = 20177) (he : firstETagValue qe = some ab.contextId)
    (hd : decryptPayload env ab qe = some qp) (hp : extractPreimage qp = some pre)
    (hpre : pre ≠ "") (hh : env.hashHex pre = some ab.paymentHash)
    (hl : env.lookupInvoice ab.paymentHash = some (some s)) (hs : 0 < s)
    (hq : env.onQuestion (askOf ab.askEvent) ab.bid ⟨qe.id, qp.content, pre, qp.tags⟩
      ab.history = some answer)
    (hfs : answer.followup_sats = some fs) (hfspos : 0 < fs)
    (hmk : env.makeInvoice (fs * 1000) ("Followup question for " ++ ab.contextId) =
      some (inv, ph))
    (hinv : inv ≠ "")
    (henc : env.encrypt (env.convKeyExpert ab.sessionPubkey)
      (env.payloadJson ⟨answer.content, answer.tags.getD [] ++ [["invoice", inv]]⟩) =
      some enc) :
    Registry.get? (handleQuestionEvent cfg env qe ab reg).1
      (env.computeId ⟨env.answerPubkey, env.now, 20178, [["e", qe.id]], enc⟩) ≠ none := by
  have hknot : ¬ (qe.kind ≠ 20177) := by simp [hk]
  have henot : ¬ (firstETagValue qe ≠ some ab.contextId) := by simp [he]
  have hhnot : ¬ (env.hashHex pre ≠ some ab.paymentHash) := by simp [hh]
  have hsnot : ¬ (s ≤ 0) := by omega
  have hreq : followupRequested answer = true := by
    rw [followupRequested, hfs]
    exact decide_eq_true ⟨by omega, hfspos⟩
  have hinvTag : invoiceTag (some (inv, ph)) = [["invoice", inv]] := by
    simp [invoiceTag, hinv]
  unfold handleQuestionEvent afterChecks publishAnswer setupFollowupSubscription
  dsimp only
  simp only [if_neg hknot, if_neg henot, hd, hp, if_neg hpre, if_neg hhnot, hl,
    if_neg hsnot, hq, if_pos hreq, hfs, hmk, hinvTag, henc,
    if_pos (show inv ≠ "" ∧ followupRequested answer = true from ⟨hinv, hreq⟩)]
  rw [Registry.get?_setKey_self]
  simp

/-- Witness for C2 amended: the concrete turn with zero accepted relays
still re-arms under the answer id "AID". -/
theorem rearm_independent_of_publish_witness :
    Registry.get? (handleQuestionEvent cfgD { envH with answerPublishOk := 0 } qeD abD []).1
      "AID" ≠ none :=
  rearm_independent_of_publish cfgD { envH with answerPublishOk := 0 } qeD abD []
    ⟨"qcontent", [["preimage", "deadbeef"]]⟩ "deadbeef" 123 7
    ⟨"answer text", none, some 7⟩ "lnbc1" "HASH2" "encanswer text"
    rfl (by decide) rfl rfl (by decide) rfl rfl (by decide) rfl rfl (by decide) rfl
    (by decide) rfl

/-- C5: after a turn whose answer offers `followup_sats > 0` (minting a
non-empty follow-up invoice) and publishes to at least one relay, the
registry holds exactly one conversation keyed by the answer event id,
whose history is the previous history extended by this turn's
(question, answer) pair, whose payment hash is the freshly minted one,
whose session pubkey is unchanged, and whose context id is the answer
id; the previous context-id key is absent. -/
theorem followup_chaining (cfg : Config) (env : Env) (qe : NEvent)
    (ab : ActiveBid) (reg0 : Registry) (qp : QuestionPayload) (pre : String)
    (s fs : Int) (answer : Answer) (inv ph enc : String) (aid : String)
    (hnd : Registry.keysNodup reg0)
    (hreg : Registry.get? reg0 ab.contextId = some ab)
    (hk : qe.kind = 20177) (he : firstETagValue qe = some ab.contextId)
    (hd : decryptPayload env ab qe = some qp) (hp : extractPreimage qp = some pre)
    (hpre : pre ≠ "") (hh : env.hashHex pre = some ab.paymentHash)
    (hl : env.lookupInvoice ab.paymentHash = some (some s)) (hs : 0 < s)
    (hq : env.onQuestion (askOf ab.askEvent) ab.bid ⟨qe.id, qp.content, pre, qp.tags⟩
      ab.history = some answer)
    (hfs : answer.followup_sats = some fs) (hfspos : 0 < fs)
    (hmk : env.makeInvoice (fs * 1000) ("Followup question for " ++ ab.contextId) =
      some (inv, ph))
    (hinv : inv ≠ "")
    (henc : env.encrypt (env.convKeyExpert ab.sessionPubkey)
      (env.payloadJson ⟨answer.content, answer.tags.getD [] ++ [["invoice", inv]]⟩) =
      some enc)
    (_hpub : 0 < env.answerPublishOk)
    (haid : aid = env.computeId ⟨env.answerPubkey, env.now, 20178, [["e", qe.id]], enc⟩)
    (hid : aid ≠ ab.contextId) :
    ∃ ab2 : ActiveBid,
      Registry.get? (questionSubOnEvent cfg env ab.contextId qe reg0).1 aid = some ab2 ∧
      ab2.history = ab.history ++ [⟨⟨qe.id, qp.content, pre, qp.tags⟩, answer⟩] ∧
      ab2.paymentHash = ph ∧
      ab2.sessionPubkey = ab.sessionPubkey ∧
      ab2.contextId = aid ∧
      ab2.subscription = ⟨cfg.questionRelays, [20177], [aid]⟩ ∧
      ab2.timeoutMs = cfg.bidTimeout * 1000 ∧
      Registry.countKey (questionSubOnEvent cfg env ab.contextId qe reg0).1 aid = 1 ∧
      Registry.get? (questionSubOnEvent cfg env ab.contextId qe reg0).1 ab.contextId =
        none := by
  have hknot : ¬ (qe.kind ≠ 20177) := by simp [hk]
  have henot : ¬ (firstETagValue qe ≠ some ab.contextId) := by simp [he]
  have hhnot : ¬ (env.hashHex pre ≠ some ab.paymentHash) := by simp [hh]
  have hsnot : ¬ (s ≤ 0) := by omega
  have hreq : followupRequested answer = true := by
    rw [followupRequested, hfs]
    exact decide_eq_true ⟨by omega, hfspos⟩
  have hinvTag : invoiceTag (some (inv, ph)) = [["invoice", inv]] := by
    simp [invoiceTag, hinv]
  have hnd1 : Registry.keysNodup (Registry.eraseKey reg0 ab.contextId) :=
    Registry.keysNodup_eraseKey reg0 ab.contextId hnd
  unfold questionSubOnEvent handleQuestionEvent afterChecks publishAnswer
    setupFollowupSubscription
  dsimp only
  simp only [hreg, if_neg hknot, if_neg henot, hd, hp, if_neg hpre, if_neg hhnot, hl,
    if_neg hsnot, hq, if_pos hreq, hfs, hmk, hinvTag, henc,
    if_pos (show inv ≠ "" ∧ followupRequested answer = true from ⟨hinv, hreq⟩)]
  rw [← haid]
  refine ⟨_, Registry.get?_setKey_self _ aid _, rfl, rfl, rfl, rfl, rfl, rfl,
    Registry.countKey_setKey_self _ aid _ hnd1, ?_⟩
  rw [Registry.get?_setKey_ne _ aid ab.contextId _ (fun hcc => hid hcc.symm)]
  exact Registry.get?_eraseKey_self reg0 ab.contextId

/-- Witness for C5: the concrete follow-up turn leaves exactly one
conversation, keyed "AID", and the old key "ctx" is gone. -/
theorem followup_chaining_witness :
    Registry.countKey (questionSubOnEvent cfgD envH "ctx" qeD [("ctx", abD)]).1 "AID" = 1 ∧
    Registry.get? (questionSubOnEvent cfgD envH "ctx" qeD [("ctx", abD)]).1 "ctx" =
      none := by
  rcases followup_chaining cfgD envH qeD abD [("ctx", abD)]
      ⟨"qcontent", [["preimage", "deadbeef"]]⟩ "deadbeef" 123 7
      ⟨"answer text", none, some 7⟩ "lnbc1" "HASH2" "encanswer text" "AID"
      (by simp [Registry.keysNodup]) (by decide) rfl (by decide) rfl rfl (by decide)
      rfl rfl (by decide) rfl rfl (by decide) rfl (by decide) rfl (by decide) rfl
      (by decide) with
    ⟨ab2, h1, h2, h3, h4, h5, h6, h7, h8, h9⟩
  exact ⟨h8, h9⟩

end AskExperts
